import Mathlib

/-!
Formalisation of the rate-limited grading backend in `main.py`.

The program keeps a process-wide `defaultdict(list)` mapping a client IP to
the list of admitted submission timestamps (`rate_limit_store`).  The helper
`is_rate_limited` compacts that window on each access, denies when the
compacted window is at capacity, and otherwise records the current instant.
The HTTP handler `grade_answer` consults the limiter, builds a prompt with
`generate_prompt`, performs the upstream completion call, and maps the
outcome to an HTTP response.

We model wall-clock instants as integers, the store as an association list
with Python's defaultdict semantics (a lookup inserts an empty entry for a
missing key), and the upstream call's outcome as an explicit parameter of the
handler.
-/

namespace RoastBack

/-- Constant `WINDOW_SECONDS = 3600` from `main.py`. -/
def WINDOW_SECONDS : Int := 3600

/-- Constant `RATE_LIMIT = 1` from `main.py` (the comment "max 3 submissions" is stale). -/
def RATE_LIMIT : Nat := 1

/-- The in-memory rate-limit store: `{ip: [timestamps]}`. -/
abbrev Store := List (String × List Int)

/-- Dictionary read with the missing-key default `[]` (the value a Python
`defaultdict(list)` lookup yields). -/
def getW : Store → String → List Int
  | [], _ => []
  | p :: rest, ip => if p.1 == ip then p.2 else getW rest ip

/-- Whether the store holds an entry for the key. -/
def hasKey : Store → String → Bool
  | [], _ => false
  | p :: rest, ip => p.1 == ip || hasKey rest ip

/-- Lookup `rate_limit_store[ip]` on a `defaultdict(list)`: returns the stored list,
inserting an empty entry when the key is missing.  The pair is
(value, store after the lookup). -/
def ddGet : Store → String → List Int × Store
  | [], ip => ([], [(ip, [])])
  | p :: rest, ip =>
    if p.1 == ip then (p.2, p :: rest)
    else
      let r := ddGet rest ip
      (r.1, p :: r.2)

/-- Assignment `rate_limit_store[ip] = v`: replace the entry in place, appending a new
one when the key is missing. -/
def ddSet : Store → String → List Int → Store
  | [], ip, v => [(ip, v)]
  | p :: rest, ip, v => if p.1 == ip then (ip, v) :: rest else p :: ddSet rest ip v

/-- Line 32 of `main.py`: keep only the timestamps younger than the window. -/
def compactW (now : Int) (w : List Int) : List Int :=
  w.filter (fun ts => decide (now - ts < WINDOW_SECONDS))

/-- Function `is_rate_limited(ip)` from `main.py`, with `time.time()` passed in as
`now` and the global store threaded explicitly.  Returns (`True` iff the
request is denied, the store after the call). -/
def is_rate_limited (now : Int) (ip : String) (store : Store) : Bool × Store :=
  let g := ddGet store ip
  let timestamps := g.1
  let s1 := ddSet g.2 ip (compactW now timestamps)
  let g2 := ddGet s1 ip
  if RATE_LIMIT ≤ g2.1.length then
    (true, g2.2)
  else
    let g3 := ddGet g2.2 ip
    (false, ddSet g3.2 ip (g3.1 ++ [now]))

/-- The harsh tone string selected for mode `"drill"`. -/
def harshTone : String :=
  "Respond harshly and sarcastically, but still provide the correct answer."

/-- The encouraging tone string selected for every other mode. -/
def encouragingTone : String :=
  "Respond kindly and encouragingly, offering constructive feedback."

/-- Function `generate_prompt(question, answer, mode)` from `main.py`. -/
def generate_prompt (question answer mode : String) : String :=
  let tone := if mode == "drill" then harshTone else encouragingTone
  "You are an AI coding instructor.\n\n" ++
    "Question: " ++ question ++ "\n" ++
    "Student\x27s Answer: " ++ answer ++ "\n\n" ++
    tone

/-- The request body of `POST /api/grade`. -/
structure AnswerRequest where
  question : String
  answer : String
  mode : String

/-- Outcome of the outbound completion call, as observed by the handler:
a successful reply, a non-success HTTP status (raised by
`raise_for_status` as `httpx.HTTPStatusError`, carrying the upstream status
and body), or any other exception (transport failure, timeout, missing
field in the payload). -/
inductive UpstreamOutcome where
  | success (reply : String)
  | httpError (status : Nat) (body : String)
  | failure (msg : String)

/-- The HTTP response the handler produces: status code and the payload
string (`response` on success, `detail` on failure). -/
structure HttpResponse where
  status : Nat
  body : String
deriving DecidableEq

/-- The literal 429 message of `main.py` (part of the HTTP contract). -/
def rateLimitMessage : String :=
  "Sorry, you reached the limit. You can only submit 3 times per hour. OpenAI isn\x27t cheap."

/-- Handler `grade_answer` from `main.py`: the limiter gate, then the upstream call
and its error mapping.  The upstream outcome is a parameter (the network is
external).  Returns (HTTP response, store after the call, the message pair
(system prompt, user content) sent to the gateway — `none` when the gateway
was never invoked). -/
def grade_answer (now : Int) (client_ip : String) (payload : AnswerRequest)
    (upstream : UpstreamOutcome) (store : Store) :
    HttpResponse × Store × Option (String × String) :=
  let r := is_rate_limited now client_ip store
  if r.1 then
    (⟨429, rateLimitMessage⟩, r.2, none)
  else
    let prompt := generate_prompt payload.question payload.answer payload.mode
    let sent := some (prompt, payload.answer)
    match upstream with
    | .success reply => (⟨200, reply⟩, r.2, sent)
    | .httpError _ _ => (⟨500, "Error from OpenAI API."⟩, r.2, sent)
    | .failure _ => (⟨500, "Internal server error."⟩, r.2, sent)

/-- Run a sequence of limiter calls for one identity, threading the store;
returns the denial flags in call order and the final store. -/
def runCalls (ip : String) : List Int → Store → List Bool × Store
  | [], s => ([], s)
  | t :: ts, s =>
    let r := is_rate_limited t ip s
    let rest := runCalls ip ts r.2
    (r.1 :: rest.1, rest.2)

/-- Does `hay` start with `needle`? -/
def charsStart : List Char → List Char → Bool
  | [], _ => true
  | _ :: _, [] => false
  | a :: as, b :: bs => a == b && charsStart as bs

/-- Does `hay` contain `needle` as a contiguous run? -/
def charsContain (needle : List Char) : List Char → Bool
  | [] => charsStart needle []
  | b :: bs => charsStart needle (b :: bs) || charsContain needle bs

/-- Substring test on strings, via the underlying character lists. -/
def strContains (hay needle : String) : Bool :=
  charsContain needle.data hay.data

/-! ### Basic store lemmas -/

theorem ddGet_fst (s : Store) (ip : String) : (ddGet s ip).1 = getW s ip := by
  induction s with
  | nil => rfl
  | cons p rest ih =>
    by_cases h : (p.1 == ip) = true
    · simp [ddGet, getW, h]
    · simp [ddGet, getW, h, ih]

theorem getW_ddGet_snd (s : Store) (ip j : String) :
    getW (ddGet s ip).2 j = getW s j := by
  induction s with
  | nil =>
    by_cases h : (ip == j) = true
    · simp [ddGet, getW, h]
    · simp [ddGet, getW, h]
  | cons p rest ih =>
    by_cases h : (p.1 == ip) = true
    · simp [ddGet, h]
    · by_cases hj : (p.1 == j) = true
      · simp [ddGet, getW, h, hj]
      · simp [ddGet, getW, h, hj, ih]

theorem hasKey_ddGet (s : Store) (ip : String) :
    hasKey (ddGet s ip).2 ip = true := by
  induction s with
  | nil => simp [ddGet, hasKey]
  | cons p rest ih =>
    by_cases h : (p.1 == ip) = true
    · simp [ddGet, hasKey, h]
    · simp [ddGet, hasKey, h, ih]

theorem getW_ddSet_self (s : Store) (ip : String) (v : List Int) :
    getW (ddSet s ip v) ip = v := by
  induction s with
  | nil => simp [ddSet, getW]
  | cons p rest ih =>
    by_cases h : (p.1 == ip) = true
    · simp [ddSet, getW, h]
    · simp [ddSet, getW, h, ih]

theorem getW_ddSet_other (s : Store) (ip : String) (v : List Int) (j : String)
    (h : ip ≠ j) :
    getW (ddSet s ip v) j = getW s j := by
  induction s with
  | nil => simp [ddSet, getW, h]
  | cons p rest ih =>
    by_cases hp : (p.1 == ip) = true
    · have hpj : (p.1 == j) = false := by
        have : p.1 = ip := by simpa using hp
        simp [this, h]
      simp [ddSet, getW, hp, hpj, h]
    · by_cases hj : (p.1 == j) = true
      · simp [ddSet, getW, hp, hj]
      · simp [ddSet, getW, hp, hj, ih]

/-! ### Characterisation of `is_rate_limited` -/

theorem irl_fst (now : Int) (ip : String) (s : Store) :
    (is_rate_limited now ip s).1 =
      decide (RATE_LIMIT ≤ (compactW now (getW s ip)).length) := by
  unfold is_rate_limited
  simp only [ddGet_fst, getW_ddGet_snd, getW_ddSet_self]
  by_cases h : RATE_LIMIT ≤ (compactW now (getW s ip)).length
  · simp [h]
  · simp [h]

theorem irl_getW_self (now : Int) (ip : String) (s : Store) :
    getW (is_rate_limited now ip s).2 ip =
      if RATE_LIMIT ≤ (compactW now (getW s ip)).length
      then compactW now (getW s ip)
      else compactW now (getW s ip) ++ [now] := by
  unfold is_rate_limited
  simp only [ddGet_fst, getW_ddGet_snd, getW_ddSet_self]
  by_cases h : RATE_LIMIT ≤ (compactW now (getW s ip)).length
  · simp [h, getW_ddGet_snd, getW_ddSet_self]
  · simp [h, getW_ddGet_snd, getW_ddSet_self]

theorem irl_getW_other (now : Int) (ip j : String) (s : Store) (h : ip ≠ j) :
    getW (is_rate_limited now ip s).2 j = getW s j := by
  unfold is_rate_limited
  simp only [ddGet_fst, getW_ddGet_snd, getW_ddSet_self]
  by_cases hc : RATE_LIMIT ≤ (compactW now (getW s ip)).length
  · simp [hc, getW_ddGet_snd, getW_ddSet_other _ _ _ _ h]
  · simp [hc, getW_ddGet_snd, getW_ddSet_other _ _ _ _ h]

/-! ### Step lemmas for single-element windows -/

theorem irl_empty_admitted (now : Int) (ip : String) (s : Store)
    (hw : compactW now (getW s ip) = []) :
    (is_rate_limited now ip s).1 = false ∧
      getW (is_rate_limited now ip s).2 ip = [now] := by
  have hlen : ¬ RATE_LIMIT ≤ (compactW now (getW s ip)).length := by
    rw [hw]; simp [RATE_LIMIT]
  constructor
  · rw [irl_fst]; simpa using hlen
  · rw [irl_getW_self, if_neg hlen, hw]; rfl

theorem irl_single_denied (now a : Int) (ip : String) (s : Store)
    (hw : getW s ip = [a]) (hin : now - a < WINDOW_SECONDS) :
    (is_rate_limited now ip s).1 = true ∧
      getW (is_rate_limited now ip s).2 ip = [a] := by
  have hc : compactW now (getW s ip) = [a] := by
    rw [hw]; simp [compactW, hin]
  have hlen : RATE_LIMIT ≤ (compactW now (getW s ip)).length := by
    rw [hc]; simp [RATE_LIMIT]
  constructor
  · rw [irl_fst]; simpa using hlen
  · rw [irl_getW_self, if_pos hlen, hc]

theorem irl_single_admitted (now a : Int) (ip : String) (s : Store)
    (hw : getW s ip = [a]) (hout : WINDOW_SECONDS ≤ now - a) :
    (is_rate_limited now ip s).1 = false ∧
      getW (is_rate_limited now ip s).2 ip = [now] := by
  apply irl_empty_admitted
  rw [hw]
  simp [compactW]
  omega

/-! ### Lemmas about call sequences for one identity -/

theorem chain_lt_drop_head {a t : Int} {ts : List Int}
    (h : List.Chain' (fun x y : Int => x < y) (t :: ts)) (hat : a < t) :
    List.Chain' (fun x y : Int => x < y) (a :: ts) := by
  cases ts with
  | nil => simp
  | cons u us =>
    have h1 := (List.chain'_cons.mp h).1
    exact List.chain'_cons.mpr ⟨by omega, (List.chain'_cons.mp h).2⟩

theorem runCalls_all_denied (ip : String) (a : Int) :
    ∀ (ts : List Int) (s : Store), getW s ip = [a] →
      (∀ t ∈ ts, t - a < WINDOW_SECONDS) →
      (∀ b ∈ (runCalls ip ts s).1, b = true) ∧
        getW (runCalls ip ts s).2 ip = [a] := by
  intro ts
  induction ts with
  | nil => intro s hw _; simpa [runCalls] using hw
  | cons t ts ih =>
    intro s hw hall
    have hd := irl_single_denied t a ip s hw (hall t (by simp))
    have hrest := ih (is_rate_limited t ip s).2 hd.2
      (fun u hu => hall u (by simp [hu]))
    refine ⟨?_, ?_⟩
    · intro b hb
      simp only [runCalls, List.mem_cons] at hb
      rcases hb with hb | hb
      · rw [hb, hd.1]
      · exact hrest.1 b hb
    · simpa [runCalls] using hrest.2

theorem runCalls_no_admission_in_span (ip : String) (t0 : Int) :
    ∀ (ts : List Int) (s : Store) (a : Int), getW s ip = [a] → t0 ≤ a →
      List.Chain' (fun x y : Int => x < y) (a :: ts) →
      ∀ p ∈ List.zip ts (runCalls ip ts s).1,
        p.1 < t0 + WINDOW_SECONDS → p.2 = true := by
  intro ts
  induction ts with
  | nil => simp
  | cons t ts ih =>
    intro s a hw ha hch p hp hin
    have hat : a < t := (List.chain'_cons.mp hch).1
    have hch2 : List.Chain' (fun x y : Int => x < y) (t :: ts) :=
      (List.chain'_cons.mp hch).2
    by_cases hspan : t - a < WINDOW_SECONDS
    · have hd := irl_single_denied t a ip s hw hspan
      simp only [runCalls, List.zip_cons_cons, List.mem_cons] at hp
      rcases hp with hp | hp
      · rw [hp, hd.1]
      · exact ih (is_rate_limited t ip s).2 a hd.2 ha
          (chain_lt_drop_head hch2 hat) p hp hin
    · have hd := irl_single_admitted t a ip s hw (by omega)
      simp only [runCalls, List.zip_cons_cons, List.mem_cons] at hp
      rcases hp with hp | hp
      · exfalso
        have hp1 : p.1 = t := by rw [hp]
        rw [hp1] at hin
        have : WINDOW_SECONDS ≤ t - a := by omega
        linarith
      · exact ih (is_rate_limited t ip s).2 t hd.2 (by omega) hch2 p hp hin

/-! ### Substring lemmas -/

theorem charsStart_refl : ∀ l : List Char, charsStart l l = true := by
  intro l
  induction l with
  | nil => rfl
  | cons c cs ih => simp [charsStart, ih]

theorem charsContain_of_start (n hay : List Char) (h : charsStart n hay = true) :
    charsContain n hay = true := by
  cases hay with
  | nil => simpa [charsContain] using h
  | cons b bs => simp [charsContain, h]

theorem charsContain_suffix : ∀ pre n : List Char, charsContain n (pre ++ n) = true := by
  intro pre
  induction pre with
  | nil => intro n; exact charsContain_of_start n n (charsStart_refl n)
  | cons b bs ih => intro n; simp [charsContain, ih n]

theorem strContains_suffix (pre suf : String) :
    strContains (pre ++ suf) suf = true := by
  unfold strContains
  rw [String.data_append]
  exact charsContain_suffix pre.data suf.data

theorem mem_compactW {now t : Int} {w : List Int} (h : t ∈ compactW now w) :
    now - t < WINDOW_SECONDS := by
  unfold compactW at h
  exact of_decide_eq_true (List.mem_filter.mp h).2

theorem grade_answer_store (now : Int) (ip : String) (p : AnswerRequest)
    (up : UpstreamOutcome) (s : Store) :
    (grade_answer now ip p up s).2.1 = (is_rate_limited now ip s).2 := by
  cases hb : (is_rate_limited now ip s).1 <;> cases up <;>
    simp [grade_answer, hb]

/-! ### The claims -/

/-- Claim C1: `is_rate_limited` first compacts the identity's stored window
to exactly the timestamps `t` with `now - t < WINDOW_SECONDS` (3600), then
denies without appending `now` precisely when the compacted window has at
least `RATE_LIMIT` (1) entries, and otherwise appends `now`, persists it,
and admits. -/
theorem check_and_record_contract (now : Int) (ip : String) (s : Store) :
    WINDOW_SECONDS = 3600 ∧ RATE_LIMIT = 1
    ∧ ((is_rate_limited now ip s).1 = true ↔
        RATE_LIMIT ≤ (compactW now (getW s ip)).length)
    ∧ getW (is_rate_limited now ip s).2 ip =
        (if RATE_LIMIT ≤ (compactW now (getW s ip)).length
         then compactW now (getW s ip)
         else compactW now (getW s ip) ++ [now]) := by
  refine ⟨rfl, rfl, ?_, irl_getW_self now ip s⟩
  rw [irl_fst]
  exact decide_eq_true_iff

/-- Claim C2: for strictly increasing call times starting from an empty
window, exactly one call in the 3600-second span that starts at the first
admitted timestamp `t0` is admitted; and when `t0` is the sole admitted
timestamp, a further call at `t0 + 3601` is admitted. -/
theorem limiter_admits_one_per_window (ip : String) (s : Store) (t0 : Int)
    (ts : List Int) (h0 : getW s ip = [])
    (hch : List.Chain' (fun x y : Int => x < y) (t0 :: ts)) :
    List.countP (fun p => decide (p.1 < t0 + WINDOW_SECONDS) && !p.2)
        (List.zip (t0 :: ts) (runCalls ip (t0 :: ts) s).1) = 1
    ∧ ((∀ t ∈ ts, t - t0 < WINDOW_SECONDS) →
        (is_rate_limited (t0 + 3601) ip (runCalls ip (t0 :: ts) s).2).1 = false) := by
  have hfirst := irl_empty_admitted t0 ip s (by rw [h0]; rfl)
  have hrun : runCalls ip (t0 :: ts) s =
      ((is_rate_limited t0 ip s).1 :: (runCalls ip ts (is_rate_limited t0 ip s).2).1,
        (runCalls ip ts (is_rate_limited t0 ip s).2).2) := rfl
  constructor
  · rw [hrun, hfirst.1, List.zip_cons_cons, List.countP_cons]
    have hzero : List.countP (fun p => decide (p.1 < t0 + WINDOW_SECONDS) && !p.2)
        (List.zip ts (runCalls ip ts (is_rate_limited t0 ip s).2).1) = 0 := by
      apply List.countP_eq_zero.mpr
      intro p hp
      by_cases hin : p.1 < t0 + WINDOW_SECONDS
      · have hden := runCalls_no_admission_in_span ip t0 ts
          (is_rate_limited t0 ip s).2 t0 hfirst.2 le_rfl hch p hp hin
        simp [hden]
      · simp [hin]
    rw [hzero]
    have hhead : t0 < t0 + WINDOW_SECONDS := by
      simp only [WINDOW_SECONDS]; omega
    simp [hhead]
  · intro hall
    have hfin := runCalls_all_denied ip t0 ts (is_rate_limited t0 ip s).2
      hfirst.2 hall
    rw [hrun]
    exact (irl_single_admitted (t0 + 3601) t0 ip _ hfin.2
      (by simp only [WINDOW_SECONDS]; omega)).1

/-- Claim C2 witness: concrete run `0, 100, 3599` from the empty store for
identity `"a"`: one admitted call in the span, and `0 + 3601` is
admitted afterwards. -/
theorem limiter_admits_one_per_window_witness :
    List.countP (fun p => decide (p.1 < (0 : Int) + WINDOW_SECONDS) && !p.2)
        (List.zip [(0 : Int), 100, 3599] (runCalls "a" [0, 100, 3599] []).1) = 1
    ∧ (is_rate_limited ((0 : Int) + 3601) "a" (runCalls "a" [0, 100, 3599] []).2).1 = false :=
  ⟨(limiter_admits_one_per_window "a" [] 0 [100, 3599] (by decide)
      (by norm_num [List.chain'_cons])).1,
    (limiter_admits_one_per_window "a" [] 0 [100, 3599] (by decide)
      (by norm_num [List.chain'_cons])).2 (by decide)⟩

/-- Claim C4: when the limiter denies, the handler answers HTTP 429 with
the exact literal message and the completion gateway is never invoked. -/
theorem denied_429_and_no_gateway_call (now : Int) (ip : String)
    (p : AnswerRequest) (up : UpstreamOutcome) (s : Store)
    (hden : (is_rate_limited now ip s).1 = true) :
    (grade_answer now ip p up s).1.status = 429
    ∧ (grade_answer now ip p up s).1.body =
        "Sorry, you reached the limit. You can only submit 3 times per hour. OpenAI isn\x27t cheap."
    ∧ (grade_answer now ip p up s).2.2 = none := by
  refine ⟨?_, ?_, ?_⟩ <;> simp [grade_answer, hden, rateLimitMessage]

/-- Claim C4 witness: a denied concrete call gets the 429 response and no
gateway invocation. -/
theorem denied_429_and_no_gateway_call_witness :
    (grade_answer 10 "a" ⟨"q", "ans", "mentor"⟩ (.success "ok") [("a", [5])]).1.status = 429
    ∧ (grade_answer 10 "a" ⟨"q", "ans", "mentor"⟩ (.success "ok") [("a", [5])]).1.body =
        "Sorry, you reached the limit. You can only submit 3 times per hour. OpenAI isn\x27t cheap."
    ∧ (grade_answer 10 "a" ⟨"q", "ans", "mentor"⟩ (.success "ok") [("a", [5])]).2.2 = none :=
  denied_429_and_no_gateway_call 10 "a" ⟨"q", "ans", "mentor"⟩ (.success "ok")
    [("a", [5])] (by decide)

/-- Claim C5: after a limiter call at instant `now`, the stored window of
the called identity holds only timestamps within `WINDOW_SECONDS` of `now`,
and — assuming the invariant held before the call — its length stays at most
`RATE_LIMIT`. -/
theorem window_invariant_preserved (now : Int) (ip : String) (s : Store)
    (hlen : (getW s ip).length ≤ RATE_LIMIT) :
    (∀ t ∈ getW (is_rate_limited now ip s).2 ip, now - t < WINDOW_SECONDS)
    ∧ (getW (is_rate_limited now ip s).2 ip).length ≤ RATE_LIMIT := by
  rw [irl_getW_self]
  have hfl : (compactW now (getW s ip)).length ≤ (getW s ip).length :=
    List.length_filter_le _ _
  by_cases hc : RATE_LIMIT ≤ (compactW now (getW s ip)).length
  · rw [if_pos hc]
    refine ⟨?_, le_trans hfl hlen⟩
    intro t ht
    exact mem_compactW ht
  · rw [if_neg hc]
    refine ⟨?_, ?_⟩
    · intro t ht
      rcases List.mem_append.mp ht with h1 | h1
      · exact mem_compactW h1
      · have ht' : t = now := by simpa using h1
        subst ht'
        simp only [WINDOW_SECONDS]
        omega
    · simp only [List.length_append, List.length_cons, List.length_nil]
      have hlt := Nat.lt_of_not_le hc
      omega

/-- Claim C5 witness: the invariant at a concrete denied call. -/
theorem window_invariant_preserved_witness :
    (getW (is_rate_limited 10 "a" [("a", [5])]).2 "a").length ≤ RATE_LIMIT :=
  (window_invariant_preserved 10 "a" [("a", [5])] (by decide)).2

/-- Claim C6: a limiter call for identity `x` leaves identity `y`'s window
unchanged, and the admit/deny outcome for `y` depends only on `y`'s window
and the instant, not on the rest of the store. -/
theorem cross_identity_frame (now : Int) (x y : String) (s s2 : Store)
    (hxy : x ≠ y) :
    getW (is_rate_limited now x s).2 y = getW s y
    ∧ (getW s y = getW s2 y →
        (is_rate_limited now y s).1 = (is_rate_limited now y s2).1) := by
  refine ⟨irl_getW_other now x y s hxy, ?_⟩
  intro h
  rw [irl_fst, irl_fst, h]

/-- Claim C6 witness: concrete stores with identities `"a"` and `"b"`. -/
theorem cross_identity_frame_witness :
    getW (is_rate_limited 10 "a" [("b", [5])]).2 "b" = getW [("b", [5])] "b"
    ∧ (is_rate_limited 10 "b" [("b", [5])]).1 =
        (is_rate_limited 10 "b" [("a", [7]), ("b", [5])]).1 :=
  ⟨(cross_identity_frame 10 "a" "b" [("b", [5])] [("a", [7]), ("b", [5])]
      (by decide)).1,
    (cross_identity_frame 10 "a" "b" [("b", [5])] [("a", [7]), ("b", [5])]
      (by decide)).2 (by decide)⟩

/-- Claim C7: quota is charged at admission: after an admitted submission at
`t`, the appended timestamp stays in the window whatever the upstream
outcome was, and a second call at any `t2` with `t2 - t < WINDOW_SECONDS`
is answered 429. -/
theorem quota_charged_at_admission (t t2 : Int) (ip : String)
    (p p2 : AnswerRequest) (up up2 : UpstreamOutcome) (s : Store)
    (hadm : (is_rate_limited t ip s).1 = false)
    (hspan : t2 - t < WINDOW_SECONDS) :
    t ∈ getW (grade_answer t ip p up s).2.1 ip
    ∧ (grade_answer t2 ip p2 up2 (grade_answer t ip p up s).2.1).1.status = 429 := by
  have hs1 := grade_answer_store t ip p up s
  have hnot : ¬ RATE_LIMIT ≤ (compactW t (getW s ip)).length := by
    intro hc
    rw [irl_fst] at hadm
    simp [hc] at hadm
  have hw : getW (is_rate_limited t ip s).2 ip
      = compactW t (getW s ip) ++ [t] := by
    rw [irl_getW_self, if_neg hnot]
  have hmem : t ∈ compactW t2 (getW (is_rate_limited t ip s).2 ip) := by
    rw [hw]
    simp only [compactW]
    apply List.mem_filter.mpr
    exact ⟨List.mem_append_right _ (by simp), by simpa using hspan⟩
  have hden : (is_rate_limited t2 ip (is_rate_limited t ip s).2).1 = true := by
    rw [irl_fst]
    apply decide_eq_true
    have hpos : 0 < (compactW t2 (getW (is_rate_limited t ip s).2 ip)).length :=
      List.length_pos.mpr (List.ne_nil_of_mem hmem)
    simp only [RATE_LIMIT]
    omega
  refine ⟨?_, ?_⟩
  · rw [hs1, hw]
    exact List.mem_append_right _ (by simp)
  · rw [hs1]
    simp [grade_answer, hden]

/-- Claim C7 witness: an admitted call at 0 whose upstream call failed still
blocks a second call at 100. -/
theorem quota_charged_at_admission_witness :
    (0 : Int) ∈ getW (grade_answer 0 "a" ⟨"q", "ans", "drill"⟩
        (.failure "timeout") []).2.1 "a"
    ∧ (grade_answer 100 "a" ⟨"q", "ans", "drill"⟩ (.success "ok")
        (grade_answer 0 "a" ⟨"q", "ans", "drill"⟩ (.failure "timeout") []).2.1).1.status
      = 429 :=
  quota_charged_at_admission 0 100 "a" ⟨"q", "ans", "drill"⟩ ⟨"q", "ans", "drill"⟩
    (.failure "timeout") (.success "ok") [] (by decide) (by decide)

/-- Claim C8 counterexample: the claim quantifies over every upstream error
body text, but when the upstream body happens to be the fixed message
`"Error from OpenAI API."` itself, the HTTP response does contain that
text. -/
theorem upstream_error_echo_counterexample :
    strContains (grade_answer 0 "a" ⟨"q", "ans", "mentor"⟩
        (.httpError 502 "Error from OpenAI API.") []).1.body
      "Error from OpenAI API." = true := by decide

/-- Claim C8 (amended): on a non-success upstream status the handler answers
HTTP 500 with detail exactly `"Error from OpenAI API."`; the response is
independent of the upstream status and body, and it does not contain any
upstream body text that is not a substring of that fixed message — in
particular not `"secret-internal-text"`. -/
theorem upstream_error_opaque (now : Int) (ip : String) (p : AnswerRequest)
    (st st2 : Nat) (body body2 : String) (s : Store)
    (hadm : (is_rate_limited now ip s).1 = false) :
    (grade_answer now ip p (.httpError st body) s).1 =
      ⟨500, "Error from OpenAI API."⟩
    ∧ (grade_answer now ip p (.httpError st body) s).1
        = (grade_answer now ip p (.httpError st2 body2) s).1
    ∧ strContains (grade_answer now ip p (.httpError st body) s).1.body
        "secret-internal-text" = false := by
  have h1 : (grade_answer now ip p (.httpError st body) s).1 =
      ⟨500, "Error from OpenAI API."⟩ := by
    simp [grade_answer, hadm]
  have h2 : (grade_answer now ip p (.httpError st2 body2) s).1 =
      ⟨500, "Error from OpenAI API."⟩ := by
    simp [grade_answer, hadm]
  refine ⟨h1, ?_, ?_⟩
  · rw [h1, h2]
  · rw [h1]
    decide

/-- Claim C8 witness: concrete admitted call with an upstream error body. -/
theorem upstream_error_opaque_witness :
    (grade_answer 0 "a" ⟨"q", "ans", "mentor"⟩
        (.httpError 502 "secret-internal-text") []).1 =
      ⟨500, "Error from OpenAI API."⟩
    ∧ (grade_answer 0 "a" ⟨"q", "ans", "mentor"⟩
        (.httpError 502 "secret-internal-text") []).1
        = (grade_answer 0 "a" ⟨"q", "ans", "mentor"⟩ (.httpError 404 "gone") []).1
    ∧ strContains (grade_answer 0 "a" ⟨"q", "ans", "mentor"⟩
        (.httpError 502 "secret-internal-text") []).1.body
        "secret-internal-text" = false :=
  upstream_error_opaque 0 "a" ⟨"q", "ans", "mentor"⟩ 502 404
    "secret-internal-text" "gone" [] (by decide)

/-- Claim C9: `generate_prompt` is a pure function of question, answer and
mode; mode `"drill"` yields a prompt containing the harsh tone instruction,
every other mode yields one containing the encouraging tone instruction,
and the output is the fixed template around the selected tone. -/
theorem prompt_template_and_tone (q a mode : String) :
    (mode = "drill" → strContains (generate_prompt q a mode) harshTone = true)
    ∧ (mode ≠ "drill" →
        strContains (generate_prompt q a mode) encouragingTone = true)
    ∧ generate_prompt q a mode =
        "You are an AI coding instructor.\n\n" ++ "Question: " ++ q ++ "\n" ++
          "Student\x27s Answer: " ++ a ++ "\n\n" ++
          (if mode = "drill" then harshTone else encouragingTone) := by
  refine ⟨?_, ?_, ?_⟩
  · intro h
    have e : generate_prompt q a mode =
        ("You are an AI coding instructor.\n\n" ++ "Question: " ++ q ++ "\n" ++
          "Student\x27s Answer: " ++ a ++ "\n\n") ++ harshTone := by
      unfold generate_prompt
      rw [h]
      rfl
    rw [e]
    exact strContains_suffix _ harshTone
  · intro h
    have hb : (mode == "drill") = false := beq_eq_false_iff_ne.mpr h
    have e : generate_prompt q a mode =
        ("You are an AI coding instructor.\n\n" ++ "Question: " ++ q ++ "\n" ++
          "Student\x27s Answer: " ++ a ++ "\n\n") ++ encouragingTone := by
      unfold generate_prompt
      rw [hb]
      rfl
    rw [e]
    exact strContains_suffix _ encouragingTone
  · by_cases h : mode = "drill"
    · subst h
      rfl
    · have hb : (mode == "drill") = false := beq_eq_false_iff_ne.mpr h
      simp [generate_prompt, hb, h]

/-- Claim C9 witness: tone selection at concrete inputs, including an
unrecognised mode. -/
theorem prompt_template_and_tone_witness :
    strContains (generate_prompt "q1" "a1" "drill") harshTone = true
    ∧ strContains (generate_prompt "q1" "a1" "mentor") encouragingTone = true
    ∧ strContains (generate_prompt "q1" "a1" "anything-else") encouragingTone = true :=
  ⟨(prompt_template_and_tone "q1" "a1" "drill").1 rfl,
    (prompt_template_and_tone "q1" "a1" "mentor").2.1 (by decide),
    (prompt_template_and_tone "q1" "a1" "anything-else").2.1 (by decide)⟩

/-- Claim C10: an identity whose stored window is absent or compacts to
empty is admitted; a denied call still rewrites the stored window to its
compacted form; and a bare defaultdict lookup of a fresh identity creates
an entry for it. -/
theorem fresh_identity_and_compaction (now : Int) (ip : String) (s : Store) :
    (compactW now (getW s ip) = [] → (is_rate_limited now ip s).1 = false)
    ∧ ((is_rate_limited now ip s).1 = true →
        getW (is_rate_limited now ip s).2 ip = compactW now (getW s ip))
    ∧ hasKey (ddGet s ip).2 ip = true := by
  refine ⟨?_, ?_, hasKey_ddGet s ip⟩
  · intro h
    exact (irl_empty_admitted now ip s h).1
  · intro h
    rw [irl_fst] at h
    rw [irl_getW_self, if_pos (of_decide_eq_true h)]

/-- Claim C10 witness: a never-seen identity is admitted; a denied call
compacts a stale entry away; a bare lookup creates the key. -/
theorem fresh_identity_and_compaction_witness :
    (is_rate_limited 5 "a" []).1 = false
    ∧ getW (is_rate_limited 7200 "b" [("b", [100, 5000])]).2 "b"
        = compactW 7200 (getW [("b", [100, 5000])] "b")
    ∧ hasKey (ddGet [] "c").2 "c" = true :=
  ⟨(fresh_identity_and_compaction 5 "a" []).1 (by decide),
    (fresh_identity_and_compaction 7200 "b" [("b", [100, 5000])]).2.1 (by decide),
    (fresh_identity_and_compaction 0 "c" []).2.2⟩

end RoastBack
